import Mathlib

/-!
Verification development for the focus-time-tracking browser extension
(`background.js`).  The two engines the claims concern are embedded as pure
Lean functions: the Blocking Rule Engine (`BlockingManager`) and the Activity
and Session Accounting Engine (`FocusTimeTracker` together with
`StorageManager.saveTimeEntry`).  Timestamps and durations are integers
(milliseconds); external effects (chrome storage writes, the
declarativeNetRequest table, emitted time entries) are made explicit in the
return types.  JavaScript truthiness of nullable numeric and string fields is
modelled exactly: `null`, `0` and `""` are falsy.
-/

namespace TTExt

/-- JavaScript truthiness of a nullable integer field: null and 0 are falsy. -/
def truthyOptInt : Option Int → Bool
  | none => false
  | some n => n != 0

/-- JavaScript truthiness of a nullable string field: null and the empty string are falsy. -/
def truthyOptStr : Option String → Bool
  | none => false
  | some s => s != ""

/-- Floor division, the value JavaScript computes for Math.floor(a / b) on integer inputs. -/
def jsFloorDiv (a b : Int) : Int := Int.fdiv a b

/-- Whether the string `pre` is a literal prefix of `s`. -/
def startsWithStr (pre s : String) : Bool := pre.data.isPrefixOf s.data

/-- Drop the first `n` characters of a string. -/
def dropChars (n : Nat) (s : String) : String := String.mk (s.data.drop n)

/-- The part of a string before its first slash, the value of s.split('/')[0]. -/
def takeUntilSlash (s : String) : String :=
  String.mk (s.data.takeWhile (fun c => c != '/'))

/-- Removal of the first occurrence of `pat` from a character list, the semantics of the
JavaScript call s.replace(pat, '') with a plain string pattern and empty replacement. -/
def replaceFirst (pat : List Char) : List Char → List Char
  | [] => []
  | c :: cs =>
    if pat.isPrefixOf (c :: cs) then (c :: cs).drop pat.length
    else c :: replaceFirst pat cs

/-- Whether `pat` occurs as a contiguous subsequence of `s`. -/
def hasSub (pat : List Char) : List Char → Bool
  | [] => pat.isEmpty
  | c :: cs => pat.isPrefixOf (c :: cs) || hasSub pat cs

/-- Domain normalisation used throughout BlockingManager, the value of
domain.replace(/^https?:\x7b\x7d/, '').replace(/^www\./, '').split('/')[0]: strip a leading
http or https scheme, strip a leading "www.", keep the part before the first slash. -/
def cleanDomain (s : String) : String :=
  let s1 :=
    if startsWithStr "https://" s then dropChars 8 s
    else if startsWithStr "http://" s then dropChars 7 s
    else s
  let s2 := if startsWithStr "www." s1 then dropChars 4 s1 else s1
  takeUntilSlash s2

/-- FocusTimeTracker.extractDomain.  The browser URL parser invoked by new URL(url) is host
functionality, so the function takes its outcome as input: some hostname when parsing succeeds,
none when the constructor throws.  The source evaluates urlObj.hostname.replace('www.', ''),
which removes the first occurrence of "www." anywhere in the hostname, and the catch branch
returns the sentinel "unknown". -/
def extractDomain : Option String → String
  | none => "unknown"
  | some h => String.mk (replaceFirst "www.".data h.data)

/-- FocusTimeTracker.isTrackableUrl: a URL is trackable unless it uses a browser-internal
scheme. -/
def isTrackableUrl (url : String) : Bool :=
  !(["chrome:", "chrome-extension:", "moz-extension:", "about:", "file:"].any
      (fun p => startsWithStr p url))

/-! Association-list embeddings of the JavaScript Map and Set used by BlockingManager.
Insertion order is preserved, matching Map and Set iteration order. -/

/-- Lookup of a key in a JavaScript Map or plain object, both embedded as association lists
keyed by strings. -/
def mapGet {β : Type} (m : List (String × β)) (k : String) : Option β :=
  match m.find? (fun p => p.1 == k) with
  | some p => some p.2
  | none => none

/-- Map.set and object property write: overwrite in place when the key exists, append
otherwise. -/
def mapSet {β : Type} (m : List (String × β)) (k : String) (v : β) : List (String × β) :=
  if m.any (fun p => p.1 == k) then
    m.map (fun p => if p.1 == k then (k, v) else p)
  else m ++ [(k, v)]

/-- Map.delete: remove the entry for a key. -/
def mapDelete {β : Type} (m : List (String × β)) (k : String) : List (String × β) :=
  m.filter (fun p => p.1 != k)

/-- Set.add: append unless already present. -/
def setAdd (s : List String) (x : String) : List String :=
  if s.contains x then s else s ++ [x]

/-- Set.delete: remove an element. -/
def setDelete (s : List String) (x : String) : List String :=
  s.filter (fun y => y != x)

/-- The mutable state owned by BlockingManager.  The url cache is not modelled; no claim
concerns it. -/
structure BlockingState where
  focusMode : Bool
  blockedSites : List String
  temporaryOverrides : List (String × Int)
  focusStartTime : Option Int
  blockedAttempts : Int
deriving DecidableEq, Repr

/-- One dynamic declarativeNetRequest rule as built by updateBlockingRules: a redirect of
main-frame requests matching `urlFilter` to the extension path "/blocked.html" at priority 1. -/
structure Rule where
  id : Nat
  priority : Nat
  redirectExtensionPath : String
  urlFilter : String
deriving DecidableEq, Repr

/-- The wildcard-subdomain match pattern installed for a blocked domain. -/
def subdomainFilter (d : String) : String := "*://*." ++ d ++ "/*"

/-- The bare match pattern installed for a blocked domain. -/
def bareFilter (d : String) : String := "*://" ++ d ++ "/*"

/-- A redirect rule with the fixed action used by the source. -/
def ruleFor (rid : Nat) (filter : String) : Rule :=
  ⟨rid, 1, "/blocked.html", filter⟩

/-- The rule-construction loop of updateBlockingRules: iterate the blocked set in insertion
order, skip a domain whose override is still active, delete an expired override when it is
encountered, and push the wildcard-subdomain rule then the bare rule with consecutive ids. -/
def buildRules (now : Int) : List String → List (String × Int) → Nat →
    List Rule × List (String × Int)
  | [], ov, _ => ([], ov)
  | d :: ds, ov, rid =>
    match mapGet ov d with
    | some expiry =>
      if now < expiry then buildRules now ds ov rid
      else
        let ov1 := mapDelete ov d
        let rest := buildRules now ds ov1 (rid + 2)
        (ruleFor rid (subdomainFilter d) :: ruleFor (rid + 1) (bareFilter d) :: rest.1, rest.2)
    | none =>
      let rest := buildRules now ds ov (rid + 2)
      (ruleFor rid (subdomainFilter d) :: ruleFor (rid + 1) (bareFilter d) :: rest.1, rest.2)

/-- BlockingManager.updateBlockingRules as a function of the in-memory state, the clock and the
currently installed dynamic rule table.  The source first removes every installed rule
(`installed` is therefore discarded), returns with the table empty when focus mode is off or no
site is blocked, and otherwise compiles and installs two redirect rules per blocked domain
without an active override.  The result is the new installed table and the state with the
expired overrides it encountered deleted. -/
def updateBlockingRules (st : BlockingState) (now : Int) (installed : List Rule) :
    List Rule × BlockingState :=
  let cleared : List Rule := []
  if !st.focusMode || st.blockedSites.isEmpty then (cleared, st)
  else
    let built := buildRules now st.blockedSites st.temporaryOverrides 1
    (built.1, { st with temporaryOverrides := built.2 })

/-- BlockingManager.clearBlockingRules: remove every installed dynamic rule. -/
def clearBlockingRules (installed : List Rule) : List Rule := []

/-- BlockingManager.initialize in a fresh process: load the persisted fields (temporary
overrides are not persisted and start empty; a falsy persisted focusStartTime loads as null),
always clear the installed rule table, and reinstall only when focusMode was persisted true. -/
def blockingRestart (persisted : BlockingState) (now : Int) (installed : List Rule) :
    List Rule × BlockingState :=
  let loaded : BlockingState :=
    { focusMode := persisted.focusMode
      blockedSites := persisted.blockedSites
      temporaryOverrides := []
      focusStartTime :=
        if truthyOptInt persisted.focusStartTime then persisted.focusStartTime else none
      blockedAttempts := persisted.blockedAttempts }
  let cleared := clearBlockingRules installed
  if loaded.focusMode then updateBlockingRules loaded now cleared else (cleared, loaded)

/-- BlockingManager.shouldBlockDomain: false when focus mode is off; false when the cleaned
domain has an unexpired override; otherwise membership in the blocked set, with an expired
override that is encountered deleted lazily.  Returns the answer and the possibly mutated
state. -/
def shouldBlockDomain (st : BlockingState) (domain : String) (now : Int) :
    Bool × BlockingState :=
  if !st.focusMode then (false, st)
  else
    let c := cleanDomain domain
    match mapGet st.temporaryOverrides c with
    | some expiry =>
      if now < expiry then (false, st)
      else
        let st1 := { st with temporaryOverrides := mapDelete st.temporaryOverrides c }
        (st1.blockedSites.contains c, st1)
    | none => (st.blockedSites.contains c, st)

/-- BlockingManager.setTemporaryOverride, the state mutation only: store expiry now + duration
under the cleaned domain.  The rule recompilation that follows and the expiry timer are the
grant and expire events of `blockStep`. -/
def setTemporaryOverride (st : BlockingState) (domain : String) (duration now : Int) :
    BlockingState :=
  { st with
      temporaryOverrides := mapSet st.temporaryOverrides (cleanDomain domain) (now + duration) }

/-- The result object returned by the blocked-site mutations. -/
structure MutResult where
  success : Bool
  domain : Option String
  error : Option String
deriving DecidableEq, Repr

/-- BlockingManager.addBlockedSite: reject only a falsy (missing or empty) argument; otherwise
normalise, insert into the blocked set, persist, and recompile the rule table only when focus
mode is on. -/
def addBlockedSite (st : BlockingState) (installed : List Rule) (domain : Option String)
    (now : Int) : BlockingState × List Rule × MutResult :=
  if !truthyOptStr domain then (st, installed, ⟨false, none, some "Invalid domain"⟩)
  else
    let c := cleanDomain (domain.getD "")
    let st1 := { st with blockedSites := setAdd st.blockedSites c }
    if st1.focusMode then
      let upd := updateBlockingRules st1 now installed
      (upd.2, upd.1, ⟨true, some c, none⟩)
    else (st1, installed, ⟨true, some c, none⟩)

/-- BlockingManager.removeBlockedSite: normalise, delete from the blocked set, persist, and
recompile the rule table only when focus mode is on. -/
def removeBlockedSite (st : BlockingState) (installed : List Rule) (domain : String)
    (now : Int) : BlockingState × List Rule × MutResult :=
  let c := cleanDomain domain
  let st1 := { st with blockedSites := setDelete st.blockedSites c }
  if st1.focusMode then
    let upd := updateBlockingRules st1 now installed
    (upd.2, upd.1, ⟨true, some c, none⟩)
  else (st1, installed, ⟨true, some c, none⟩)

/-- BlockingManager.toggleFocusMode: flip the flag; when turning on, set focusStartTime, zero
blockedAttempts and recompile; when turning off, clear focusStartTime and remove all rules. -/
def toggleFocusMode (st : BlockingState) (installed : List Rule) (now : Int) :
    BlockingState × List Rule :=
  let st1 := { st with focusMode := !st.focusMode }
  if st1.focusMode then
    let st2 := { st1 with focusStartTime := some now, blockedAttempts := 0 }
    let upd := updateBlockingRules st2 now installed
    (upd.2, upd.1)
  else
    let st2 := { st1 with focusStartTime := none }
    (st2, clearBlockingRules installed)

/-- The blocking engine together with the externally installed rule table. -/
structure BlockSys where
  st : BlockingState
  installed : List Rule
deriving DecidableEq, Repr

/-- The mutation commands that drive the blocking engine: focus toggle, blocklist mutation,
override grant, the override-expiry timer callback, and process restart. -/
inductive BlockEvent where
  | toggle (now : Int)
  | add (domain : Option String) (now : Int)
  | remove (domain : String) (now : Int)
  | grant (domain : String) (duration : Int) (now : Int)
  | expire (domain : String) (now : Int)
  | restart (now : Int)
deriving DecidableEq, Repr

/-- The wall-clock instant at which an event is processed. -/
def BlockEvent.time : BlockEvent → Int
  | toggle now => now
  | add _ now => now
  | remove _ now => now
  | grant _ _ now => now
  | expire _ now => now
  | restart now => now

/-- One mutation of the blocking engine.  grant is setTemporaryOverride followed by the
conditional recompilation; expire is the setTimeout callback, which deletes the override and
recompiles when focus mode is on; restart is BlockingManager.initialize of a new process. -/
def blockStep (sys : BlockSys) : BlockEvent → BlockSys
  | .toggle now =>
    let r := toggleFocusMode sys.st sys.installed now
    ⟨r.1, r.2⟩
  | .add d now =>
    let r := addBlockedSite sys.st sys.installed d now
    ⟨r.1, r.2.1⟩
  | .remove d now =>
    let r := removeBlockedSite sys.st sys.installed d now
    ⟨r.1, r.2.1⟩
  | .grant d dur now =>
    let st1 := setTemporaryOverride sys.st d dur now
    if st1.focusMode then
      let upd := updateBlockingRules st1 now sys.installed
      ⟨upd.2, upd.1⟩
    else ⟨st1, sys.installed⟩
  | .expire d now =>
    let st1 :=
      { sys.st with temporaryOverrides := mapDelete sys.st.temporaryOverrides (cleanDomain d) }
    if st1.focusMode then
      let upd := updateBlockingRules st1 now sys.installed
      ⟨upd.2, upd.1⟩
    else ⟨st1, sys.installed⟩
  | .restart now =>
    let r := blockingRestart sys.st now sys.installed
    ⟨r.2, r.1⟩

/-- Run a sequence of blocking-engine mutations. -/
def blockRun : BlockSys → List BlockEvent → BlockSys
  | sys, [] => sys
  | sys, e :: es => blockRun (blockStep sys e) es

/-- Whether a domain has an override that is still active at `now`. -/
def overrideActive (ov : List (String × Int)) (d : String) (now : Int) : Bool :=
  match mapGet ov d with
  | some e => now < e
  | none => false

/-- The two match patterns compiled for one blocked domain, wildcard-subdomain form first. -/
def domainFilters (d : String) : List String := [subdomainFilter d, bareFilter d]

/-- The match patterns for a blocked set: two per domain without an active override. -/
def specFiltersFor (now : Int) (ov : List (String × Int)) : List String → List String
  | [] => []
  | d :: ds =>
    if overrideActive ov d now then specFiltersFor now ov ds
    else domainFilters d ++ specFiltersFor now ov ds

/-- Modelled from the spec: the CompiledRuleSet derived from a BlockingState - when focus mode
is on and the blocked set is non-empty, the bare and wildcard-subdomain match patterns of every
blocked domain without an active override, and the empty set otherwise. -/
def specCompiledFilters (st : BlockingState) (now : Int) : List String :=
  if st.focusMode && !st.blockedSites.isEmpty then
    specFiltersFor now st.temporaryOverrides st.blockedSites
  else []

/-- The consistency invariant of the spec: the installed table is exactly the compiled set for
the current BlockingState. -/
def SysInv (sys : BlockSys) (now : Int) : Prop :=
  sys.installed.map Rule.urlFilter = specCompiledFilters sys.st now

/-! The Activity and Session Accounting Engine: FocusTimeTracker's single current session,
its pause bookkeeping, and the persistence paths that emit time entries. -/

/-- The single current session owned by FocusTimeTracker. -/
structure Session where
  tabId : Option Int
  domain : Option String
  startTime : Option Int
  savedTime : Int
  isActive : Bool
deriving DecidableEq, Repr

/-- The reset value stopCurrentTracking assigns to the session. -/
def emptySession : Session := ⟨none, none, none, 0, false⟩

/-- One call to StorageManager.saveTimeEntry: the domain key, the time delta in milliseconds
and the visit delta.  The domain argument is nullable in the source. -/
structure TimeEntry where
  domain : Option String
  timeSpent : Int
  visits : Int
deriving DecidableEq, Repr

/-- The tracker fields the accounting claims depend on: the current session plus the enhanced
activity-management state. -/
structure TrackerState where
  currentSession : Session
  isSessionPaused : Bool
  pausedAt : Option Int
  totalPausedTime : Int
  inactivityThreshold : Int
  lastActivityTime : Int
  autoManagementEnabled : Bool
deriving DecidableEq, Repr

/-- FocusTimeTracker.stopCurrentTracking.  The guard mirrors the JavaScript truthiness test
(!isActive || !startTime), so a start time of literally 0 counts as no session.  An entry is
persisted only when now - startTime + savedTime exceeds 1000 ms and the domain is truthy; the
persisted amount is that total rounded down to a whole second; totalPausedTime is not
consulted, and savedTime is included even though the periodic flush already persisted it.
Afterwards the session is reset to empty. -/
def stopCurrentTracking (st : TrackerState) (now : Int) : TrackerState × List TimeEntry :=
  if !st.currentSession.isActive || !truthyOptInt st.currentSession.startTime then (st, [])
  else
    let timeSpent := now - st.currentSession.startTime.getD 0 + st.currentSession.savedTime
    let entries :=
      if 1000 < timeSpent ∧ truthyOptStr st.currentSession.domain = true then
        [⟨st.currentSession.domain, jsFloorDiv timeSpent 1000 * 1000, 1⟩]
      else []
    ({ st with currentSession := emptySession }, entries)

/-- FocusTimeTracker.saveCurrentSession, the periodic flush: persists only when the session is
active with a truthy start time and not paused, and only when the net elapsed time (gross
elapsed minus totalPausedTime) reaches one full minute; it then persists whole minutes with no
visit increment, accumulates them into savedTime, re-anchors startTime so the sub-minute
remainder keeps counting, and zeroes totalPausedTime. -/
def saveCurrentSession (st : TrackerState) (now : Int) : TrackerState × List TimeEntry :=
  if st.currentSession.isActive && truthyOptInt st.currentSession.startTime &&
      !st.isSessionPaused then
    let gross := now - st.currentSession.startTime.getD 0
    let net := gross - st.totalPausedTime
    if 60000 ≤ net then
      let minutesToSave := jsFloorDiv net 60000 * 60000
      ({ st with
          currentSession := { st.currentSession with
            savedTime := st.currentSession.savedTime + minutesToSave
            startTime := some (now - (net - minutesToSave)) }
          totalPausedTime := 0 },
       [⟨st.currentSession.domain, minutesToSave, 0⟩])
    else (st, [])
  else (st, [])

/-- FocusTimeTracker.resumeSession: a no-op unless paused; otherwise fold the elapsed pause
(0 when pausedAt is falsy) into totalPausedTime, clear pausedAt and refresh
lastActivityTime. -/
def resumeSession (st : TrackerState) (now : Int) : TrackerState :=
  if !st.isSessionPaused then st
  else
    let pausedDuration := if truthyOptInt st.pausedAt then now - st.pausedAt.getD 0 else 0
    { st with
        totalPausedTime := st.totalPausedTime + pausedDuration
        isSessionPaused := false
        pausedAt := none
        lastActivityTime := now }

/-- FocusTimeTracker.pauseSession: a no-op when already paused or when no session is active;
otherwise flush via saveCurrentSession first, then mark the session paused at `now` with the
pause accumulator reset. -/
def pauseSession (st : TrackerState) (now : Int) : TrackerState × List TimeEntry :=
  if st.isSessionPaused || !st.currentSession.isActive then (st, [])
  else
    let flushed := saveCurrentSession st now
    ({ flushed.1 with isSessionPaused := true, pausedAt := some now, totalPausedTime := 0 },
     flushed.2)

/-- The payload of an ENHANCED_ACTIVITY_DETECTED message, as consumed by the handler. -/
structure ActivityPayload where
  isActive : Bool
  timeSinceLastActivity : Int
deriving DecidableEq, Repr

/-- FocusTimeTracker.updateActivity: refresh lastActivityTime, and resume immediately when an
active signal arrives while paused under auto management. -/
def updateActivity (st : TrackerState) (now : Int) (p : ActivityPayload) : TrackerState :=
  let st1 := { st with lastActivityTime := now }
  if p.isActive then
    if st1.isSessionPaused && st1.autoManagementEnabled then resumeSession st1 now else st1
  else st1

/-- FocusTimeTracker.handleEnhancedActivityDetected: updateActivity, then auto-pause when the
signal is inactive, auto management is on, the session is not paused and the reported
timeSinceLastActivity exceeds the inactivity threshold; then auto-resume when the signal is
active while paused. -/
def handleEnhancedActivityDetected (st : TrackerState) (now : Int) (p : ActivityPayload) :
    TrackerState × List TimeEntry :=
  let st1 := updateActivity st now p
  let afterPause :=
    if !p.isActive && st1.autoManagementEnabled && !st1.isSessionPaused &&
        decide (st1.inactivityThreshold < p.timeSinceLastActivity) then
      pauseSession st1 now
    else (st1, [])
  let st3 :=
    if p.isActive && afterPause.1.isSessionPaused && afterPause.1.autoManagementEnabled then
      resumeSession afterPause.1 now
    else afterPause.1
  (st3, afterPause.2)

/-- FocusTimeTracker.startTracking after the domain has been extracted from the tab URL: stop
the current session first when one is active, then start a fresh active session anchored at
`now`. -/
def startTracking (st : TrackerState) (tabId : Int) (domain : String) (now : Int) :
    TrackerState × List TimeEntry :=
  let stopped := if st.currentSession.isActive then stopCurrentTracking st now else (st, [])
  ({ stopped.1 with currentSession := ⟨some tabId, some domain, some now, 0, true⟩ },
   stopped.2)

/-- FocusTimeTracker.pauseTracking (window focus lost): when a session is active, persist
savedTime plus the open interval when the total exceeds one second (unrounded, no visit),
then clear savedTime, deactivate and drop startTime while keeping the domain. -/
def pauseTracking (st : TrackerState) (now : Int) : TrackerState × List TimeEntry :=
  if st.currentSession.isActive then
    let activeDuration := now - st.currentSession.startTime.getD 0
    let totalDuration := st.currentSession.savedTime + activeDuration
    let entries :=
      if 1000 < totalDuration then [⟨st.currentSession.domain, totalDuration, 0⟩] else []
    ({ st with currentSession :=
        { st.currentSession with savedTime := 0, isActive := false, startTime := none } },
     entries)
  else (st, [])

/-- FocusTimeTracker.resumeTracking (window focus regained): when no session is active and the
tab is present and trackable, re-anchor startTime at `now` and reactivate. -/
def resumeTracking (st : TrackerState) (trackable : Bool) (now : Int) : TrackerState :=
  if !st.currentSession.isActive && trackable then
    { st with currentSession :=
        { st.currentSession with startTime := some now, isActive := true } }
  else st

/-- The events that drive the accounting engine, each carrying its wall-clock instant: session
start and stop, the 30-second periodic flush timer, inactivity pause and resume, an enhanced
activity signal, and window blur and focus. -/
inductive TrackerEvent where
  | start (tabId : Int) (domain : String) (now : Int)
  | stop (now : Int)
  | flush (now : Int)
  | pause (now : Int)
  | resume (now : Int)
  | activity (p : ActivityPayload) (now : Int)
  | windowBlur (now : Int)
  | windowFocus (trackable : Bool) (now : Int)
deriving DecidableEq, Repr

/-- One event of the accounting engine.  The flush event is the setInterval callback, which
calls saveCurrentSession only when a session is active. -/
def trackerStep (st : TrackerState) : TrackerEvent → TrackerState × List TimeEntry
  | .start tabId d now => startTracking st tabId d now
  | .stop now => stopCurrentTracking st now
  | .flush now => if st.currentSession.isActive then saveCurrentSession st now else (st, [])
  | .pause now => pauseSession st now
  | .resume now => (resumeSession st now, [])
  | .activity p now => handleEnhancedActivityDetected st now p
  | .windowBlur now => pauseTracking st now
  | .windowFocus t now => (resumeTracking st t now, [])

/-- Run a sequence of accounting events, concatenating every persisted time entry. -/
def runTracker (st : TrackerState) : List TrackerEvent → TrackerState × List TimeEntry
  | [] => (st, [])
  | e :: es =>
    let r1 := trackerStep st e
    let r2 := runTracker r1.1 es
    (r2.1, r1.2 ++ r2.2)

/-! StorageManager.saveTimeEntry folded into a persisted DailyStats value. -/

/-- The per-domain counters of a DailyStats record. -/
structure SiteStats where
  timeSpent : Int
  visits : Int
deriving DecidableEq, Repr

/-- A persisted DailyStats record.  The floating-point productivityScore field is display-only
and not modelled; no claim concerns it. -/
structure DailyStats where
  totalTime : Int
  sitesVisited : Int
  sites : List (String × SiteStats)
deriving DecidableEq, Repr

/-- The key coercion JavaScript applies when a null domain is used as an object key. -/
def jsObjKey : Option String → String
  | none => "null"
  | some s => s

/-- StorageManager.saveTimeEntry applied to today's DailyStats: initialise the domain entry to
zeroes when absent, add both deltas, add the time delta to totalTime, and recompute
sitesVisited as the number of site keys. -/
def saveTimeEntry (stats : DailyStats) (domain : Option String) (timeSpent visits : Int) :
    DailyStats :=
  let key := jsObjKey domain
  let site := (mapGet stats.sites key).getD ⟨0, 0⟩
  let site1 : SiteStats := ⟨site.timeSpent + timeSpent, site.visits + visits⟩
  let sites1 := mapSet stats.sites key site1
  { totalTime := stats.totalTime + timeSpent
    sitesVisited := sites1.length
    sites := sites1 }

/-- The accumulated time of a domain in a DailyStats record, zero when absent. -/
def siteTime (stats : DailyStats) (k : String) : Int :=
  ((mapGet stats.sites k).getD ⟨0, 0⟩).timeSpent

/-- The accumulated visits of a domain in a DailyStats record, zero when absent. -/
def siteVisits (stats : DailyStats) (k : String) : Int :=
  ((mapGet stats.sites k).getD ⟨0, 0⟩).visits

end TTExt

/-! Helper lemmas about the association-list embedding of JavaScript maps. -/

namespace TTExt

theorem mapGet_cons {β : Type} (a : String × β) (m : List (String × β)) (k : String) :
    mapGet (a :: m) k = if a.1 == k then some a.2 else mapGet m k := by
  cases h : a.1 == k <;> simp [mapGet, List.find?, h]

theorem mapGet_map_update_self {β : Type} (m : List (String × β)) (k : String) (v : β)
    (h : m.any (fun p => p.1 == k) = true) :
    mapGet (m.map (fun p => if p.1 == k then (k, v) else p)) k = some v := by
  induction m with
  | nil => simp at h
  | cons a m ih =>
    cases ha : a.1 == k with
    | true =>
      have ha' : a.1 = k := by simpa using ha
      simp [ha', mapGet_cons]
    | false =>
      have ha' : ¬a.1 = k := by simpa using ha
      simp only [List.any_cons, ha, Bool.false_or] at h
      simpa [ha', ha, mapGet_cons] using ih h

theorem mapGet_append_single_self {β : Type} (m : List (String × β)) (k : String) (v : β)
    (h : m.any (fun p => p.1 == k) = false) :
    mapGet (m ++ [(k, v)]) k = some v := by
  induction m with
  | nil => simp [mapGet, List.find?]
  | cons a m ih =>
    simp only [List.any_cons, Bool.or_eq_false_iff] at h
    simpa [mapGet_cons, h.1] using ih h.2

theorem mapGet_mapSet_self {β : Type} (m : List (String × β)) (k : String) (v : β) :
    mapGet (mapSet m k v) k = some v := by
  unfold mapSet
  cases h : m.any (fun p => p.1 == k) with
  | true => simpa [h] using mapGet_map_update_self m k v h
  | false => simpa [h] using mapGet_append_single_self m k v h

theorem mapGet_mapDelete_self {β : Type} (m : List (String × β)) (k : String) :
    mapGet (mapDelete m k) k = none := by
  induction m with
  | nil => rfl
  | cons a m ih =>
    cases ha : a.1 == k with
    | true =>
      have hbne : (a.1 != k) = false := by simp [bne, ha]
      simpa [mapDelete, List.filter_cons, hbne] using ih
    | false =>
      have hbne : (a.1 != k) = true := by simp [bne, ha]
      simpa [mapDelete, List.filter_cons, hbne, mapGet_cons, ha] using ih

theorem mapGet_mapDelete_ne {β : Type} (m : List (String × β)) (k k' : String)
    (h : k' ≠ k) : mapGet (mapDelete m k) k' = mapGet m k' := by
  induction m with
  | nil => rfl
  | cons a m ih =>
    by_cases ha : a.1 = k
    · have hbne : (a.1 != k) = false := by simp [bne, ha]
      have hb : (a.1 == k') = false := by
        rw [ha]
        exact beq_eq_false_iff_ne.mpr (Ne.symm h)
      simpa [mapDelete, List.filter_cons, hbne, mapGet_cons, hb] using ih
    · have hbne : (a.1 != k) = true := by simp [bne, ha]
      cases hb : a.1 == k' with
      | true => simp [mapDelete, List.filter_cons, hbne, mapGet_cons, hb]
      | false => simpa [mapDelete, List.filter_cons, hbne, mapGet_cons, hb] using ih

end TTExt

/-! Arithmetic helper lemmas about floor division. -/

namespace TTExt

theorem jsFloorDiv_eq_ediv (a b : Int) (hb : 0 ≤ b) : jsFloorDiv a b = a / b :=
  Int.fdiv_eq_ediv a hb

theorem jsFloorDiv_mul_le (a b : Int) (hb : 0 < b) : jsFloorDiv a b * b ≤ a := by
  rw [jsFloorDiv_eq_ediv a b hb.le]
  exact Int.ediv_mul_le a hb.ne'

theorem lt_jsFloorDiv_mul_add (a b : Int) (hb : 0 < b) : a < jsFloorDiv a b * b + b := by
  rw [jsFloorDiv_eq_ediv a b hb.le]
  have h1 := Int.emod_lt_of_pos a hb
  have h2 := Int.emod_def a b
  have h3 : b * (a / b) = a / b * b := mul_comm b (a / b)
  linarith

theorem le_jsFloorDiv_mul (a b : Int) (hb : 0 < b) (h : b ≤ a) : b ≤ jsFloorDiv a b * b := by
  rw [jsFloorDiv_eq_ediv a b hb.le]
  have h1 : 1 ≤ a / b := (Int.le_ediv_iff_mul_le hb).mpr (by simpa using h)
  calc b = 1 * b := (one_mul b).symm
  _ ≤ a / b * b := mul_le_mul_of_nonneg_right h1 hb.le

theorem jsFloorDiv_remainder_nonneg (a b : Int) (hb : 0 < b) :
    0 ≤ a - jsFloorDiv a b * b := by
  have := jsFloorDiv_mul_le a b hb
  linarith

theorem jsFloorDiv_remainder_lt (a b : Int) (hb : 0 < b) : a - jsFloorDiv a b * b < b := by
  have := lt_jsFloorDiv_mul_add a b hb
  linarith

/-! Helper lemmas about pause and resume. -/

theorem pauseSession_of_paused (st : TrackerState) (now : Int)
    (h : st.isSessionPaused = true) : pauseSession st now = (st, []) := by
  simp [pauseSession, h]

theorem pauseSession_of_inactive (st : TrackerState) (now : Int)
    (h : st.currentSession.isActive = false) : pauseSession st now = (st, []) := by
  simp [pauseSession, h]

theorem resumeSession_of_unpaused (st : TrackerState) (now : Int)
    (h : st.isSessionPaused = false) : resumeSession st now = st := by
  simp [resumeSession, h]

theorem pauseSession_paused_of_run (st : TrackerState) (now : Int)
    (hp : st.isSessionPaused = false) (ha : st.currentSession.isActive = true) :
    ((pauseSession st now).1).isSessionPaused = true := by
  simp [pauseSession, hp, ha]

/-- C10: pauseSession leaves the whole tracker state unchanged and persists nothing when the
session is already paused or no session is active, resumeSession leaves the state unchanged
when the session is not paused, and consequently repeating either operation is harmless: a
second resume after a resume and a second pause after a pause are exact no-ops, so paused time
can never be folded into totalPausedTime twice and pausedAt cannot be corrupted. -/
theorem pause_resume_noops :
    (∀ (st : TrackerState) (now : Int),
        st.isSessionPaused = true ∨ st.currentSession.isActive = false →
        pauseSession st now = (st, []))
    ∧ (∀ (st : TrackerState) (now : Int),
        st.isSessionPaused = false → resumeSession st now = st)
    ∧ (∀ (st : TrackerState) (now now' : Int),
        resumeSession (resumeSession st now) now' = resumeSession st now)
    ∧ (∀ (st : TrackerState) (now now' : Int),
        pauseSession (pauseSession st now).1 now' = ((pauseSession st now).1, [])) := by
  refine ⟨?_, ?_, ?_, ?_⟩
  · intro st now h
    rcases h with h | h
    · exact pauseSession_of_paused st now h
    · exact pauseSession_of_inactive st now h
  · intro st now h
    exact resumeSession_of_unpaused st now h
  · intro st now now'
    cases hp : st.isSessionPaused with
    | false => rw [resumeSession_of_unpaused st now hp, resumeSession_of_unpaused st now' hp]
    | true =>
      have h1 : (resumeSession st now).isSessionPaused = false := by
        simp [resumeSession, hp]
      exact resumeSession_of_unpaused _ now' h1
  · intro st now now'
    cases hp : st.isSessionPaused with
    | true =>
      rw [pauseSession_of_paused st now hp]
      exact pauseSession_of_paused st now' hp
    | false =>
      cases ha : st.currentSession.isActive with
      | false =>
        rw [pauseSession_of_inactive st now ha]
        exact pauseSession_of_inactive st now' ha
      | true =>
        exact pauseSession_of_paused _ now' (pauseSession_paused_of_run st now hp ha)

/-- Witness for C10: the no-op branches evaluated at a concrete paused state. -/
theorem pause_resume_noops_witness :
    pauseSession ⟨⟨some 1, some "example.com", some 5, 0, true⟩, true, some 3, 0, 300000, 0,
        true⟩ 9 =
      (⟨⟨some 1, some "example.com", some 5, 0, true⟩, true, some 3, 0, 300000, 0, true⟩, []) :=
  pause_resume_noops.1 _ 9 (Or.inl rfl)

end TTExt

namespace TTExt

/-- C6: shouldBlockDomain returns false whenever focus mode is off; otherwise an override with
now strictly before its expiry forces false with the state untouched; an expired override that
is encountered is deleted lazily and membership in blockedDomains decides the answer, as it
does when no override exists.  Consequently a granted override of the given duration makes
shouldBlockDomain false at every instant from the grant up to (excluding) grantTime + duration,
and from the expiry onwards the answer reverts to the pre-override blocked or unblocked status,
namely focus mode together with membership in blockedDomains. -/
theorem shouldBlockDomain_spec :
    (∀ (st : BlockingState) (d : String) (now : Int),
        st.focusMode = false → (shouldBlockDomain st d now).1 = false)
    ∧ (∀ (st : BlockingState) (d : String) (now e : Int),
        mapGet st.temporaryOverrides (cleanDomain d) = some e → now < e →
        (shouldBlockDomain st d now).1 = false ∧ (shouldBlockDomain st d now).2 = st)
    ∧ (∀ (st : BlockingState) (d : String) (now e : Int),
        st.focusMode = true →
        mapGet st.temporaryOverrides (cleanDomain d) = some e → ¬now < e →
        shouldBlockDomain st d now =
          (st.blockedSites.contains (cleanDomain d),
           { st with temporaryOverrides := mapDelete st.temporaryOverrides (cleanDomain d) }))
    ∧ (∀ (st : BlockingState) (d : String) (now : Int),
        st.focusMode = true →
        mapGet st.temporaryOverrides (cleanDomain d) = none →
        shouldBlockDomain st d now = (st.blockedSites.contains (cleanDomain d), st))
    ∧ (∀ (st : BlockingState) (d : String) (dur g t : Int),
        g ≤ t → t < g + dur →
        (shouldBlockDomain (setTemporaryOverride st d dur g) d t).1 = false)
    ∧ (∀ (st : BlockingState) (d : String) (dur g t : Int),
        g + dur ≤ t →
        (shouldBlockDomain (setTemporaryOverride st d dur g) d t).1 =
          (st.focusMode && st.blockedSites.contains (cleanDomain d))) := by
  refine ⟨?_, ?_, ?_, ?_, ?_, ?_⟩
  · intro st d now h
    simp [shouldBlockDomain, h]
  · intro st d now e hov he
    cases hf : st.focusMode with
    | false => simp [shouldBlockDomain, hf]
    | true => simp [shouldBlockDomain, hf, hov, he]
  · intro st d now e hf hov he
    simp [shouldBlockDomain, hf, hov, he]
  · intro st d now hf hov
    simp [shouldBlockDomain, hf, hov]
  · intro st d dur g t _ ht
    cases hf : st.focusMode with
    | false => simp [shouldBlockDomain, setTemporaryOverride, hf]
    | true =>
      have hget : mapGet (setTemporaryOverride st d dur g).temporaryOverrides (cleanDomain d) =
          some (g + dur) := by
        simpa [setTemporaryOverride] using
          mapGet_mapSet_self st.temporaryOverrides (cleanDomain d) (g + dur)
      have ht' : t < g + dur := ht
      simp [shouldBlockDomain, setTemporaryOverride, hf, hget,
        mapGet_mapSet_self st.temporaryOverrides (cleanDomain d) (g + dur), ht']
  · intro st d dur g t ht
    have hget : mapGet (mapSet st.temporaryOverrides (cleanDomain d) (g + dur))
        (cleanDomain d) = some (g + dur) :=
      mapGet_mapSet_self st.temporaryOverrides (cleanDomain d) (g + dur)
    have ht' : ¬t < g + dur := not_lt.mpr ht
    cases hf : st.focusMode with
    | false => simp [shouldBlockDomain, setTemporaryOverride, hf]
    | true => simp [shouldBlockDomain, setTemporaryOverride, hf, hget, ht']

/-- Witness for C6: an override of 300000 ms granted at time 1000 on a focus-mode state
blocking x.com suppresses blocking at time 200000, and blocking reverts at time 301000. -/
theorem shouldBlockDomain_spec_witness :
    (shouldBlockDomain (setTemporaryOverride ⟨true, ["x.com"], [], none, 0⟩ "x.com" 300000
        1000) "x.com" 200000).1 = false
    ∧ (shouldBlockDomain (setTemporaryOverride ⟨true, ["x.com"], [], none, 0⟩ "x.com" 300000
        1000) "x.com" 301000).1 = true :=
  ⟨shouldBlockDomain_spec.2.2.2.2.1 ⟨true, ["x.com"], [], none, 0⟩ "x.com" 300000 1000 200000
      (by decide) (by decide),
   by
    have h := shouldBlockDomain_spec.2.2.2.2.2 ⟨true, ["x.com"], [], none, 0⟩ "x.com" 300000
      1000 301000 (by decide)
    rw [h]
    decide⟩

end TTExt

namespace TTExt

theorem saveTimeEntry_siteTime (stats : DailyStats) (dom : Option String) (t v : Int) :
    siteTime (saveTimeEntry stats dom t v) (jsObjKey dom) = siteTime stats (jsObjKey dom) + t := by
  simp [saveTimeEntry, siteTime, mapGet_mapSet_self]

theorem saveTimeEntry_siteVisits (stats : DailyStats) (dom : Option String) (t v : Int) :
    siteVisits (saveTimeEntry stats dom t v) (jsObjKey dom) =
      siteVisits stats (jsObjKey dom) + v := by
  simp [saveTimeEntry, siteVisits, mapGet_mapSet_self]

/-- Counterexample for C2: at the claim's own concrete input - a session for example.com
started at t = 0 and stopped at t = 65000 - the source persists nothing and does not even
reset the session, because the guard !this.currentSession.startTime treats the start time 0 as
falsy; the claimed outcome timeSpent += 65000 and visits += 1 does not occur. -/
theorem stop_at_zero_start_counterexample :
    stopCurrentTracking ⟨⟨some 1, some "example.com", some 0, 0, true⟩, false, none, 0,
        300000, 0, true⟩ 65000 =
      (⟨⟨some 1, some "example.com", some 0, 0, true⟩, false, none, 0, 300000, 0, true⟩,
       []) := by
  decide

/-- C2 (amended): for every active session whose start time is nonzero (a start time of
literally 0 is falsy in the source and makes the stop a silent no-op), stopping at `now`
computes netElapsed = now - startTime + accumulatedSavedTime and, when netElapsed exceeds
1000 ms and the domain is truthy, persists exactly the whole-second amount
floor(netElapsed / 1000) * 1000 with one added visit, resets the session to empty, and folding
that entry into DailyStats adds exactly that amount to the domain's timeSpent and 1 to its
visits; 65000 ms survives the rounding unchanged, so a session spanning 65000 ms yields
timeSpent += 65000 and visits += 1. -/
theorem stop_persists_rounded (st : TrackerState) (stats : DailyStats) (now t0 : Int)
    (d : String)
    (hact : st.currentSession.isActive = true)
    (hstart : st.currentSession.startTime = some t0)
    (ht0 : t0 ≠ 0)
    (hdom : st.currentSession.domain = some d)
    (hd : d ≠ "")
    (hnet : 1000 < now - t0 + st.currentSession.savedTime) :
    stopCurrentTracking st now =
      ({ st with currentSession := emptySession },
       [⟨some d, jsFloorDiv (now - t0 + st.currentSession.savedTime) 1000 * 1000, 1⟩])
    ∧ siteTime (saveTimeEntry stats (some d)
          (jsFloorDiv (now - t0 + st.currentSession.savedTime) 1000 * 1000) 1) d =
        siteTime stats d + jsFloorDiv (now - t0 + st.currentSession.savedTime) 1000 * 1000
    ∧ siteVisits (saveTimeEntry stats (some d)
          (jsFloorDiv (now - t0 + st.currentSession.savedTime) 1000 * 1000) 1) d =
        siteVisits stats d + 1
    ∧ jsFloorDiv 65000 1000 * 1000 = 65000 := by
  refine ⟨?_, ?_, ?_, by decide⟩
  · simp [stopCurrentTracking, hact, hstart, truthyOptInt, ht0, hdom, truthyOptStr, hd, hnet]
  · simpa [jsObjKey] using saveTimeEntry_siteTime stats (some d)
      (jsFloorDiv (now - t0 + st.currentSession.savedTime) 1000 * 1000) 1
  · simpa [jsObjKey] using saveTimeEntry_siteVisits stats (some d)
      (jsFloorDiv (now - t0 + st.currentSession.savedTime) 1000 * 1000) 1

/-- Witness for C2 (amended): a session for example.com started at t = 1000 and stopped at
t = 66000 persists the 65000 ms entry with one visit and resets the session. -/
theorem stop_persists_rounded_witness :
    stopCurrentTracking ⟨⟨some 7, some "example.com", some 1000, 0, true⟩, false, none, 0,
        300000, 0, true⟩ 66000 =
      ({ (⟨⟨some 7, some "example.com", some 1000, 0, true⟩, false, none, 0, 300000, 0,
          true⟩ : TrackerState) with currentSession := emptySession },
       [⟨some "example.com", jsFloorDiv (66000 - 1000 + 0) 1000 * 1000, 1⟩]) :=
  (stop_persists_rounded _ ⟨0, 0, []⟩ 66000 1000 "example.com" rfl rfl (by decide) rfl
    (by decide) (by decide)).1

end TTExt

namespace TTExt

theorem saveCurrentSession_run (st : TrackerState) (now t0 : Int)
    (hact : st.currentSession.isActive = true)
    (hstart : st.currentSession.startTime = some t0)
    (ht0 : t0 ≠ 0)
    (hp : st.isSessionPaused = false)
    (hnet : 60000 ≤ now - t0 - st.totalPausedTime) :
    saveCurrentSession st now =
      ({ st with
          currentSession := { st.currentSession with
            savedTime := st.currentSession.savedTime +
              jsFloorDiv (now - t0 - st.totalPausedTime) 60000 * 60000
            startTime := some (now - (now - t0 - st.totalPausedTime -
              jsFloorDiv (now - t0 - st.totalPausedTime) 60000 * 60000)) }
          totalPausedTime := 0 },
       [⟨st.currentSession.domain,
         jsFloorDiv (now - t0 - st.totalPausedTime) 60000 * 60000, 0⟩]) := by
  simp [saveCurrentSession, hact, hstart, truthyOptInt, ht0, hp, hnet]

theorem saveCurrentSession_noop_of_small (st : TrackerState) (now : Int)
    (h : ¬60000 ≤ now - st.currentSession.startTime.getD 0 - st.totalPausedTime) :
    saveCurrentSession st now = (st, []) := by
  cases hc : (st.currentSession.isActive && truthyOptInt st.currentSession.startTime &&
      !st.isSessionPaused) with
  | false =>
    rw [saveCurrentSession]
    simp [hc]
  | true =>
    rw [saveCurrentSession]
    simp only [hc, if_true]
    simp [h]

theorem saveCurrentSession_noop_of_guard (st : TrackerState) (now : Int)
    (h : (st.currentSession.isActive && truthyOptInt st.currentSession.startTime &&
      !st.isSessionPaused) = false) :
    saveCurrentSession st now = (st, []) := by
  rw [saveCurrentSession]
  simp [h]

theorem saveCurrentSession_only_when (st : TrackerState) (now : Int)
    (h : (saveCurrentSession st now).2 ≠ []) :
    st.currentSession.isActive = true ∧ st.isSessionPaused = false ∧
      60000 ≤ now - st.currentSession.startTime.getD 0 - st.totalPausedTime := by
  cases hc : (st.currentSession.isActive && truthyOptInt st.currentSession.startTime &&
      !st.isSessionPaused) with
  | false => exact absurd (by rw [saveCurrentSession_noop_of_guard st now hc]) h
  | true =>
    by_cases hn : 60000 ≤ now - st.currentSession.startTime.getD 0 - st.totalPausedTime
    · have h1 := hc
      simp only [Bool.and_eq_true, Bool.not_eq_true'] at h1
      exact ⟨h1.1.1, h1.2, hn⟩
    · exact absurd (by rw [saveCurrentSession_noop_of_small st now hn]) h

theorem saveCurrentSession_twice (st : TrackerState) (now : Int) :
    saveCurrentSession (saveCurrentSession st now).1 now = ((saveCurrentSession st now).1, []) := by
  cases hc : (st.currentSession.isActive && truthyOptInt st.currentSession.startTime &&
      !st.isSessionPaused) with
  | false =>
    rw [saveCurrentSession_noop_of_guard st now hc]
    exact saveCurrentSession_noop_of_guard st now hc
  | true =>
    by_cases hn : 60000 ≤ now - st.currentSession.startTime.getD 0 - st.totalPausedTime
    · have h1 := hc
      simp only [Bool.and_eq_true, Bool.not_eq_true'] at h1
      obtain ⟨⟨hact, htruthy⟩, hp⟩ := h1
      cases hst : st.currentSession.startTime with
      | none => rw [hst] at htruthy; exact absurd htruthy (by simp [truthyOptInt])
      | some t0 =>
        have ht0 : t0 ≠ 0 := by
          rw [hst] at htruthy
          simpa [truthyOptInt] using htruthy
        rw [hst] at hn
        simp only [Option.getD_some] at hn
        rw [saveCurrentSession_run st now t0 hact hst ht0 hp hn]
        set rem : Int := now - t0 - st.totalPausedTime -
          jsFloorDiv (now - t0 - st.totalPausedTime) 60000 * 60000 with hrem
        have hrlt : rem < 60000 :=
          jsFloorDiv_remainder_lt (now - t0 - st.totalPausedTime) 60000 (by norm_num)
        apply saveCurrentSession_noop_of_small
        simp only [Option.getD_some]
        intro hcontra
        omega
    · rw [saveCurrentSession_noop_of_small st now hn]
      exact saveCurrentSession_noop_of_small st now hn

/-- C3: the periodic flush persists only when the session is active, not paused and the net
elapsed time since the last anchor reaches one full minute; when it does, it persists exactly
floor(net / 60000) * 60000 ms, adds that amount to the accumulated savedTime, re-anchors
startTime so the sub-minute remainder keeps counting, and zeroes the pause accumulator; and a
second flush at the same instant is always a no-op, so time is persisted at most once. -/
theorem periodic_flush_spec (st : TrackerState) (now t0 : Int)
    (hact : st.currentSession.isActive = true)
    (hstart : st.currentSession.startTime = some t0)
    (ht0 : t0 ≠ 0)
    (hp : st.isSessionPaused = false)
    (hnet : 60000 ≤ now - t0 - st.totalPausedTime) :
    saveCurrentSession st now =
      ({ st with
          currentSession := { st.currentSession with
            savedTime := st.currentSession.savedTime +
              jsFloorDiv (now - t0 - st.totalPausedTime) 60000 * 60000
            startTime := some (now - (now - t0 - st.totalPausedTime -
              jsFloorDiv (now - t0 - st.totalPausedTime) 60000 * 60000)) }
          totalPausedTime := 0 },
       [⟨st.currentSession.domain,
         jsFloorDiv (now - t0 - st.totalPausedTime) 60000 * 60000, 0⟩])
    ∧ (∀ (s : TrackerState) (n : Int), (saveCurrentSession s n).2 ≠ [] →
        s.currentSession.isActive = true ∧ s.isSessionPaused = false ∧
          60000 ≤ n - s.currentSession.startTime.getD 0 - s.totalPausedTime)
    ∧ (∀ (s : TrackerState) (n : Int),
        saveCurrentSession (saveCurrentSession s n).1 n = ((saveCurrentSession s n).1, [])) :=
  ⟨saveCurrentSession_run st now t0 hact hstart ht0 hp hnet,
   fun s n => saveCurrentSession_only_when s n,
   fun s n => saveCurrentSession_twice s n⟩

/-- Witness for C3: a flush at t = 131000 of a session anchored at t = 1000 persists 120000 ms,
keeps the 10000 ms remainder by re-anchoring at t = 121000, and a second immediate flush is a
no-op. -/
theorem periodic_flush_spec_witness :
    saveCurrentSession ⟨⟨some 1, some "example.com", some 1000, 0, true⟩, false, none, 0,
        300000, 0, true⟩ 131000 =
      (⟨⟨some 1, some "example.com",
          some (131000 - (131000 - 1000 - 0 - jsFloorDiv (131000 - 1000 - 0) 60000 * 60000)),
          0 + jsFloorDiv (131000 - 1000 - 0) 60000 * 60000, true⟩, false, none, 0, 300000, 0,
        true⟩,
       [⟨some "example.com", jsFloorDiv (131000 - 1000 - 0) 60000 * 60000, 0⟩]) :=
  (periodic_flush_spec ⟨⟨some 1, some "example.com", some 1000, 0, true⟩, false, none, 0,
      300000, 0, true⟩ 131000 1000 rfl rfl (by decide) rfl (by decide)).1

end TTExt

namespace TTExt

theorem stopCurrentTracking_entries_pos (st : TrackerState) (now : Int) (x : TimeEntry)
    (hx : x ∈ (stopCurrentTracking st now).2) : 0 < x.timeSpent := by
  rw [stopCurrentTracking] at hx
  split at hx
  · simp at hx
  · simp only at hx
    split at hx
    · rename_i hcond
      simp only [List.mem_singleton] at hx
      subst hx
      have h1000 : (1000 : Int) ≤ now - st.currentSession.startTime.getD 0 +
          st.currentSession.savedTime := le_of_lt hcond.1
      have := le_jsFloorDiv_mul (now - st.currentSession.startTime.getD 0 +
        st.currentSession.savedTime) 1000 (by norm_num) h1000
      simpa using lt_of_lt_of_le (by norm_num : (0 : Int) < 1000) this
    · simp at hx

theorem saveCurrentSession_entries_pos (st : TrackerState) (now : Int) (x : TimeEntry)
    (hx : x ∈ (saveCurrentSession st now).2) : 0 < x.timeSpent := by
  cases hc : (st.currentSession.isActive && truthyOptInt st.currentSession.startTime &&
      !st.isSessionPaused) with
  | false =>
    rw [saveCurrentSession_noop_of_guard st now hc] at hx
    simp at hx
  | true =>
    by_cases hn : 60000 ≤ now - st.currentSession.startTime.getD 0 - st.totalPausedTime
    · have h1 := hc
      simp only [Bool.and_eq_true, Bool.not_eq_true'] at h1
      obtain ⟨⟨hact, htruthy⟩, hp⟩ := h1
      cases hst : st.currentSession.startTime with
      | none => rw [hst] at htruthy; exact absurd htruthy (by simp [truthyOptInt])
      | some t0 =>
        have ht0 : t0 ≠ 0 := by
          rw [hst] at htruthy
          simpa [truthyOptInt] using htruthy
        rw [hst] at hn
        simp only [Option.getD_some] at hn
        rw [saveCurrentSession_run st now t0 hact hst ht0 hp hn] at hx
        simp only [List.mem_singleton] at hx
        subst hx
        have := le_jsFloorDiv_mul (now - t0 - st.totalPausedTime) 60000 (by norm_num) hn
        simpa using lt_of_lt_of_le (by norm_num : (0 : Int) < 60000) this
    · rw [saveCurrentSession_noop_of_small st now hn] at hx
      simp at hx

theorem pauseTracking_entries_pos (st : TrackerState) (now : Int) (x : TimeEntry)
    (hx : x ∈ (pauseTracking st now).2) : 0 < x.timeSpent := by
  rw [pauseTracking] at hx
  split at hx
  · simp only at hx
    split at hx
    · rename_i hcond
      simp only [List.mem_singleton] at hx
      subst hx
      simpa using lt_trans (by norm_num : (0 : Int) < 1000) hcond
    · simp at hx
  · simp at hx

theorem pauseSession_entries_pos (st : TrackerState) (now : Int) (x : TimeEntry)
    (hx : x ∈ (pauseSession st now).2) : 0 < x.timeSpent := by
  rw [pauseSession] at hx
  split at hx
  · simp at hx
  · simp only at hx
    exact saveCurrentSession_entries_pos st now x hx

theorem startTracking_entries_pos (st : TrackerState) (tabId : Int) (d : String) (now : Int)
    (x : TimeEntry) (hx : x ∈ (startTracking st tabId d now).2) : 0 < x.timeSpent := by
  rw [startTracking] at hx
  simp only at hx
  split at hx
  · exact stopCurrentTracking_entries_pos st now x hx
  · simp at hx

theorem handleEnhanced_entries_pos (st : TrackerState) (now : Int) (p : ActivityPayload)
    (x : TimeEntry) (hx : x ∈ (handleEnhancedActivityDetected st now p).2) :
    0 < x.timeSpent := by
  rw [handleEnhancedActivityDetected] at hx
  simp only at hx
  split at hx
  · exact pauseSession_entries_pos _ now x hx
  · simp at hx

theorem trackerStep_entries_pos (st : TrackerState) (e : TrackerEvent) (x : TimeEntry)
    (hx : x ∈ (trackerStep st e).2) : 0 < x.timeSpent := by
  cases e with
  | start tabId d now => exact startTracking_entries_pos st tabId d now x hx
  | stop now => exact stopCurrentTracking_entries_pos st now x hx
  | flush now =>
    rw [trackerStep] at hx
    split at hx
    · exact saveCurrentSession_entries_pos st now x hx
    · simp at hx
  | pause now => exact pauseSession_entries_pos st now x hx
  | resume now => simp [trackerStep] at hx
  | activity p now => exact handleEnhanced_entries_pos st now p x hx
  | windowBlur now => exact pauseTracking_entries_pos st now x hx
  | windowFocus t now => simp [trackerStep] at hx

theorem runTracker_entries_pos (st : TrackerState) (events : List TrackerEvent) (x : TimeEntry)
    (hx : x ∈ (runTracker st events).2) : 0 < x.timeSpent := by
  induction events generalizing st with
  | nil => simp [runTracker] at hx
  | cons e es ih =>
    rw [runTracker] at hx
    simp only [List.mem_append] at hx
    rcases hx with hx | hx
    · exact trackerStep_entries_pos st e x hx
    · exact ih _ hx

/-- C7: along every sequence of session starts, stops, flushes, pauses, resumes, activity
signals and window focus changes - with arbitrary, possibly backward-jumping clocks - every
time entry persisted to DailyStats carries a strictly positive (in particular non-negative)
timeSpent delta: a computed negative elapsed time never passes the persistence guards, and
folding a non-negative delta into DailyStats never decreases totalTime. -/
theorem persisted_deltas_nonneg :
    (∀ (st0 : TrackerState) (events : List TrackerEvent) (x : TimeEntry),
        x ∈ (runTracker st0 events).2 → 0 ≤ x.timeSpent)
    ∧ (∀ (stats : DailyStats) (dom : Option String) (t v : Int),
        0 ≤ t → stats.totalTime ≤ (saveTimeEntry stats dom t v).totalTime) := by
  constructor
  · intro st0 events x hx
    exact le_of_lt (runTracker_entries_pos st0 events x hx)
  · intro stats dom t v ht
    simp [saveTimeEntry]
    linarith

/-- Witness for C7: a trace that starts a session at t = 1000, hits a flush after the clock
jumped backwards to t = 500 (a no-op), and stops at t = 66500 persists exactly one entry,
whose delta 65000 is non-negative. -/
theorem persisted_deltas_nonneg_witness :
    (runTracker ⟨emptySession, false, none, 0, 300000, 0, true⟩
        [TrackerEvent.start 1 "example.com" 1000, TrackerEvent.flush 500,
         TrackerEvent.stop 66500]).2 = [⟨some "example.com", 65000, 1⟩]
    ∧ 0 ≤ (65000 : Int) :=
  ⟨by decide,
   persisted_deltas_nonneg.1 ⟨emptySession, false, none, 0, 300000, 0, true⟩
     [TrackerEvent.start 1 "example.com" 1000, TrackerEvent.flush 500,
      TrackerEvent.stop 66500] ⟨some "example.com", 65000, 1⟩ (by decide)⟩

end TTExt

namespace TTExt

/-- C4 evaluated at the failing input: a session anchored at t = 1000000 that is paused at
minute 3, resumed at minute 8 and stopped at minute 10 - 10 minutes of wall clock with
minutes 3 to 8 paused.  The pause flush persists 180000 ms; the stop then persists 600000 ms
because stopCurrentTracking never subtracts totalPausedTime (300000 ms of recorded pause) and
re-adds the already persisted savedTime.  The total, 780000 ms, exceeds the claimed bound of
5 minutes plus 1 second (301000 ms) - the paused interval is not excluded. -/
theorem pause_does_not_exclude_time_eval :
    (runTracker ⟨⟨some 1, some "example.com", some 1000000, 0, true⟩, false, none, 0, 300000,
        0, true⟩
        [TrackerEvent.pause 1180000, TrackerEvent.resume 1480000,
         TrackerEvent.stop 1600000]).2 =
      [⟨some "example.com", 180000, 0⟩, ⟨some "example.com", 600000, 1⟩]
    ∧ (180000 : Int) + 600000 = 780000
    ∧ ¬((180000 : Int) + 600000 ≤ 301000) := by
  refine ⟨by decide, by decide, by decide⟩

theorem handleEnhanced_pause_only_when (st : TrackerState) (now : Int) (p : ActivityPayload)
    (hp : st.isSessionPaused = false)
    (h : (handleEnhancedActivityDetected st now p).1.isSessionPaused = true) :
    p.isActive = false ∧ st.autoManagementEnabled = true ∧
      st.inactivityThreshold < p.timeSinceLastActivity ∧
      st.currentSession.isActive = true := by
  cases hpa : p.isActive with
  | true =>
    exfalso
    rw [handleEnhancedActivityDetected, updateActivity] at h
    simp [hpa, hp] at h
  | false =>
    by_cases hauto : st.autoManagementEnabled = true
    · by_cases hth : st.inactivityThreshold < p.timeSinceLastActivity
      · by_cases hact : st.currentSession.isActive = true
        · exact ⟨rfl, hauto, hth, hact⟩
        · exfalso
          have hact' : st.currentSession.isActive = false := by
            cases hx : st.currentSession.isActive
            · rfl
            · exact absurd hx hact
          rw [handleEnhancedActivityDetected, updateActivity] at h
          simp [hpa, hp, hauto, hth, pauseSession, hact'] at h
      · exfalso
        rw [handleEnhancedActivityDetected, updateActivity] at h
        simp [hpa, hp, hauto, hth] at h
    · exfalso
      have hauto' : st.autoManagementEnabled = false := by
        cases hx : st.autoManagementEnabled
        · rfl
        · exact absurd hx hauto
      rw [handleEnhancedActivityDetected, updateActivity] at h
      simp [hpa, hp, hauto'] at h

theorem handleEnhanced_pause_flush (st : TrackerState) (now t0 : Int) (p : ActivityPayload)
    (hact : st.currentSession.isActive = true)
    (hstart : st.currentSession.startTime = some t0)
    (ht0 : t0 ≠ 0)
    (hp : st.isSessionPaused = false)
    (hauto : st.autoManagementEnabled = true)
    (hpa : p.isActive = false)
    (hth : st.inactivityThreshold < p.timeSinceLastActivity)
    (hnet : 60000 ≤ now - t0 - st.totalPausedTime) :
    handleEnhancedActivityDetected st now p =
      ({ st with
          currentSession := { st.currentSession with
            savedTime := st.currentSession.savedTime +
              jsFloorDiv (now - t0 - st.totalPausedTime) 60000 * 60000
            startTime := some (now - (now - t0 - st.totalPausedTime -
              jsFloorDiv (now - t0 - st.totalPausedTime) 60000 * 60000)) }
          isSessionPaused := true
          pausedAt := some now
          totalPausedTime := 0
          lastActivityTime := now },
       [⟨st.currentSession.domain,
         jsFloorDiv (now - t0 - st.totalPausedTime) 60000 * 60000, 0⟩]) := by
  simp [handleEnhancedActivityDetected, updateActivity, pauseSession, saveCurrentSession,
    hpa, hauto, hp, hact, hstart, truthyOptInt, ht0, hth, hnet]

/-- C5 (amended): a session becomes paused only when the reported time since the last activity
exceeds inactivityThresholdMs, auto management is enabled, the signal is inactive and a session
is active; pausing flushes first; but the flush captures the whole net elapsed time up to the
moment of the check - in the concrete case with threshold 300000, session and last signal
anchored at a nonzero t0 and the check at t0 + 360000, the flush persists 360000 ms, the full
span up to the check time, not only up to the threshold boundary at t0 + 300000 (and when the
session is anchored at exactly t = 0 the flush is skipped entirely, persisting nothing). -/
theorem inactivity_pause_spec (st : TrackerState) (now t0 : Int) (p : ActivityPayload)
    (hact : st.currentSession.isActive = true)
    (hstart : st.currentSession.startTime = some t0)
    (ht0 : t0 ≠ 0)
    (hp : st.isSessionPaused = false)
    (hauto : st.autoManagementEnabled = true)
    (hpa : p.isActive = false)
    (hth : st.inactivityThreshold < p.timeSinceLastActivity)
    (hnet : 60000 ≤ now - t0 - st.totalPausedTime) :
    handleEnhancedActivityDetected st now p =
      ({ st with
          currentSession := { st.currentSession with
            savedTime := st.currentSession.savedTime +
              jsFloorDiv (now - t0 - st.totalPausedTime) 60000 * 60000
            startTime := some (now - (now - t0 - st.totalPausedTime -
              jsFloorDiv (now - t0 - st.totalPausedTime) 60000 * 60000)) }
          isSessionPaused := true
          pausedAt := some now
          totalPausedTime := 0
          lastActivityTime := now },
       [⟨st.currentSession.domain,
         jsFloorDiv (now - t0 - st.totalPausedTime) 60000 * 60000, 0⟩])
    ∧ (∀ (s : TrackerState) (n : Int) (q : ActivityPayload),
        s.isSessionPaused = false →
        (handleEnhancedActivityDetected s n q).1.isSessionPaused = true →
        q.isActive = false ∧ s.autoManagementEnabled = true ∧
          s.inactivityThreshold < q.timeSinceLastActivity ∧
          s.currentSession.isActive = true) :=
  ⟨handleEnhanced_pause_flush st now t0 p hact hstart ht0 hp hauto hpa hth hnet,
   fun s n q => handleEnhanced_pause_only_when s n q⟩

/-- Witness for C5 (amended): threshold 300000, session anchored at t0 = 1000, inactive check
at t = 361000 reporting 360000 ms since the last signal: the session pauses and the flush
persists 360000 ms - time up to the check instant. -/
theorem inactivity_pause_spec_witness :
    handleEnhancedActivityDetected ⟨⟨some 1, some "example.com", some 1000, 0, true⟩, false,
        none, 0, 300000, 1000, true⟩ 361000 ⟨false, 360000⟩ =
      (⟨⟨some 1, some "example.com",
          some (361000 - (361000 - 1000 - 0 - jsFloorDiv (361000 - 1000 - 0) 60000 * 60000)),
          0 + jsFloorDiv (361000 - 1000 - 0) 60000 * 60000, true⟩, true, some 361000, 0,
        300000, 361000, true⟩,
       [⟨some "example.com", jsFloorDiv (361000 - 1000 - 0) 60000 * 60000, 0⟩]) :=
  (inactivity_pause_spec ⟨⟨some 1, some "example.com", some 1000, 0, true⟩, false, none, 0,
      300000, 1000, true⟩ 361000 1000 ⟨false, 360000⟩ rfl rfl (by decide) rfl rfl rfl
      (by decide) (by decide)).1

/-- Counterexample for C5: at the claim's own concrete anchoring - threshold 300000, session
and last signal at t = 0, periodic check at t = 360000 with auto management on - the session
does pause, but the promised flush persists nothing at all (the start time 0 is falsy in the
source), rather than capturing time up to approximately t = 300000. -/
theorem inactivity_flush_counterexample :
    (handleEnhancedActivityDetected ⟨⟨some 1, some "example.com", some 0, 0, true⟩, false,
        none, 0, 300000, 0, true⟩ 360000 ⟨false, 360000⟩).1.isSessionPaused = true
    ∧ (handleEnhancedActivityDetected ⟨⟨some 1, some "example.com", some 0, 0, true⟩, false,
        none, 0, 300000, 0, true⟩ 360000 ⟨false, 360000⟩).2 = [] := by
  refine ⟨by decide, by decide⟩

end TTExt

namespace TTExt

/-- Counterexample for C8: the malformed input "https://" - a URL with an empty domain part -
is truthy, so the source accepts it, normalises it to the empty string, adds the empty-string
domain to blockedDomains, and returns success, contradicting the claim that every invalid or
empty input is rejected with no state mutation and that not even an empty-string domain is
ever added. -/
theorem addBlockedSite_empty_domain_counterexample :
    addBlockedSite ⟨false, [], [], none, 0⟩ [] (some "https://") 0 =
      (⟨false, [""], [], none, 0⟩, [], ⟨true, some "", none⟩) := by
  decide

/-- C8 (amended): addBlockedSite rejects only a falsy argument (missing or empty string) with
success false, the error message and no mutation of any state; every other input, however
malformed, is normalised (possibly to the empty string), added to blockedDomains, and answered
with success and the normalised domain, and the rule table is recompiled exactly when focus
mode is on. -/
theorem addBlockedSite_spec :
    (∀ (st : BlockingState) (inst : List Rule) (d : Option String) (now : Int),
        truthyOptStr d = false →
        addBlockedSite st inst d now = (st, inst, ⟨false, none, some "Invalid domain"⟩))
    ∧ (∀ (st : BlockingState) (inst : List Rule) (raw : String) (now : Int),
        ¬raw = "" →
        addBlockedSite st inst (some raw) now =
          (if st.focusMode then
            ((updateBlockingRules
                { st with blockedSites := setAdd st.blockedSites (cleanDomain raw) } now
                inst).2,
             (updateBlockingRules
                { st with blockedSites := setAdd st.blockedSites (cleanDomain raw) } now
                inst).1,
             ⟨true, some (cleanDomain raw), none⟩)
          else
            ({ st with blockedSites := setAdd st.blockedSites (cleanDomain raw) }, inst,
             ⟨true, some (cleanDomain raw), none⟩))) := by
  constructor
  · intro st inst d now h
    rw [addBlockedSite]
    simp [h]
  · intro st inst raw now h
    cases hf : st.focusMode with
    | true => simp [addBlockedSite, truthyOptStr, h, hf]
    | false => simp [addBlockedSite, truthyOptStr, h, hf]

/-- Witness for C8 (amended): the empty-string input is rejected with no mutation, and the
truthy input "x.com" with focus mode off is added with no rule recompilation. -/
theorem addBlockedSite_spec_witness :
    addBlockedSite ⟨true, ["x.com"], [], none, 0⟩ [] (some "") 5 =
      (⟨true, ["x.com"], [], none, 0⟩, [], ⟨false, none, some "Invalid domain"⟩)
    ∧ addBlockedSite ⟨false, [], [], none, 0⟩ [] (some "y.com") 5 =
      (⟨false, ["y.com"], [], none, 0⟩, [], ⟨true, some "y.com", none⟩) :=
  ⟨addBlockedSite_spec.1 ⟨true, ["x.com"], [], none, 0⟩ [] (some "") 5 rfl,
   by
    have h := addBlockedSite_spec.2 ⟨false, [], [], none, 0⟩ [] "y.com" 5 (by decide)
    simpa using h⟩

theorem replaceFirst_of_isPrefix (pat s : List Char) (hne : pat ≠ [])
    (h : pat.isPrefixOf s = true) : replaceFirst pat s = s.drop pat.length := by
  cases s with
  | nil =>
    cases pat with
    | nil => exact absurd rfl hne
    | cons a as => simp [List.isPrefixOf] at h
  | cons c cs => simp [replaceFirst, h]

theorem replaceFirst_of_not_hasSub (pat s : List Char) (h : hasSub pat s = false) :
    replaceFirst pat s = s := by
  induction s with
  | nil => rfl
  | cons c cs ih =>
    rw [hasSub] at h
    simp only [Bool.or_eq_false_iff] at h
    rw [replaceFirst]
    simp [h.1, ih h.2]

theorem replaceFirst_length (pat s : List Char) (hne : pat ≠ [])
    (h : hasSub pat s = true) :
    (replaceFirst pat s).length + pat.length = s.length := by
  induction s with
  | nil =>
    rw [hasSub] at h
    simp only [List.isEmpty_iff] at h
    exact absurd h hne
  | cons c cs ih =>
    by_cases hp : pat.isPrefixOf (c :: cs) = true
    · have hle : pat.length ≤ (c :: cs).length :=
        (List.isPrefixOf_iff_prefix.mp hp).length_le
      rw [replaceFirst]
      simp only [hp, if_true, List.length_drop]
      omega
    · have hp' : pat.isPrefixOf (c :: cs) = false := by
        cases hx : pat.isPrefixOf (c :: cs)
        · rfl
        · exact absurd hx hp
      rw [hasSub, hp'] at h
      simp only [Bool.false_or] at h
      rw [replaceFirst]
      simp only [hp', Bool.false_eq_true, if_false, List.length_cons]
      have := ih h
      omega

/-- Counterexample for C9: the parseable URL hostname files.www.example.com contains "www."
away from the front; the claim says such an occurrence is preserved, but the source's
hostname.replace('www.', '') removes the first occurrence anywhere, returning
files.example.com. -/
theorem extractDomain_internal_www_counterexample :
    extractDomain (some "files.www.example.com") = "files.example.com"
    ∧ ¬("files.example.com" = "files.www.example.com") :=
  ⟨by decide, by decide⟩

/-- C9 (amended): domain extraction takes the parsed hostname and removes the first occurrence
of "www." anywhere in it (exactly four characters disappear whenever the hostname contains
"www.", wherever it occurs; a leading "www." is therefore stripped, and a hostname without
"www." is unchanged), and a non-parseable URL yields the sentinel "unknown" without throwing,
under which bucket a session is still started and tracked. -/
theorem extractDomain_spec :
    extractDomain none = "unknown"
    ∧ (∀ h : String, "www.".data.isPrefixOf h.data = true →
        (extractDomain (some h)).data = h.data.drop 4)
    ∧ (∀ h : String, hasSub "www.".data h.data = false → extractDomain (some h) = h)
    ∧ (∀ h : String, hasSub "www.".data h.data = true →
        (extractDomain (some h)).data.length + 4 = h.data.length)
    ∧ (∀ (st : TrackerState) (tabId : Int) (now : Int),
        ((startTracking st tabId (extractDomain none) now).1).currentSession.domain =
          some "unknown"
        ∧ ((startTracking st tabId (extractDomain none) now).1).currentSession.isActive =
          true) := by
  refine ⟨rfl, ?_, ?_, ?_, ?_⟩
  · intro h hp
    show replaceFirst "www.".data h.data = h.data.drop 4
    rw [replaceFirst_of_isPrefix "www.".data h.data (by decide) hp]
    congr 1
  · intro h hs
    show String.mk (replaceFirst "www.".data h.data) = h
    rw [replaceFirst_of_not_hasSub "www.".data h.data hs]
  · intro h hs
    show (replaceFirst "www.".data h.data).length + 4 = h.data.length
    have := replaceFirst_length "www.".data h.data (by decide) hs
    simpa using this
  · intro st tabId now
    constructor <;> simp [startTracking, extractDomain]

/-- Witness for C9 (amended): the hostname www.example.com loses its leading four
characters. -/
theorem extractDomain_spec_witness :
    (extractDomain (some "www.example.com")).data = "www.example.com".data.drop 4 :=
  extractDomain_spec.2.1 "www.example.com" (by decide)

end TTExt

namespace TTExt

theorem overrideActive_mapDelete_of_expired (ov : List (String × Int)) (d : String)
    (now e : Int) (hget : mapGet ov d = some e) (he : ¬now < e) (x : String) :
    overrideActive (mapDelete ov d) x now = overrideActive ov x now := by
  by_cases hx : x = d
  · subst hx
    rw [overrideActive, overrideActive, mapGet_mapDelete_self, hget]
    simp [he]
  · rw [overrideActive, overrideActive, mapGet_mapDelete_ne ov d x hx]

theorem specFiltersFor_congr (now : Int) (ov1 ov2 : List (String × Int))
    (h : ∀ x, overrideActive ov1 x now = overrideActive ov2 x now) (ds : List String) :
    specFiltersFor now ov1 ds = specFiltersFor now ov2 ds := by
  induction ds with
  | nil => rfl
  | cons d ds ih => rw [specFiltersFor, specFiltersFor, h d, ih]

theorem buildRules_fst_map (now : Int) (ds : List String) :
    ∀ (ov : List (String × Int)) (rid : Nat),
      ((buildRules now ds ov rid).1).map Rule.urlFilter = specFiltersFor now ov ds := by
  induction ds with
  | nil => intro ov rid; rfl
  | cons d ds ih =>
    intro ov rid
    rw [buildRules, specFiltersFor]
    cases hget : mapGet ov d with
    | some e =>
      by_cases he : now < e
      · have hov : overrideActive ov d now = true := by
          rw [overrideActive, hget]
          simp [he]
        simp [hget, he, hov, ih]
      · have hov : overrideActive ov d now = false := by
          rw [overrideActive, hget]
          simp [he]
        have hcong := specFiltersFor_congr now (mapDelete ov d) ov
          (overrideActive_mapDelete_of_expired ov d now e hget he) ds
        simp [hget, he, hov, ih, hcong, ruleFor, domainFilters]
    | none =>
      have hov : overrideActive ov d now = false := by rw [overrideActive, hget]
      simp [hget, hov, ih, ruleFor, domainFilters]

theorem overrideActive_buildRules_snd (now : Int) (ds : List String) :
    ∀ (ov : List (String × Int)) (rid : Nat) (x : String),
      overrideActive ((buildRules now ds ov rid).2) x now = overrideActive ov x now := by
  induction ds with
  | nil => intro ov rid x; rfl
  | cons d ds ih =>
    intro ov rid x
    rw [buildRules]
    cases hget : mapGet ov d with
    | some e =>
      by_cases he : now < e
      · simp [hget, he, ih]
      · simp only [hget, he, if_false]
        rw [ih]
        exact overrideActive_mapDelete_of_expired ov d now e hget he x
    | none => simp [hget, ih]

theorem buildRules_fields (now : Int) (ds : List String) :
    ∀ (ov : List (String × Int)) (rid : Nat) (r : Rule),
      r ∈ (buildRules now ds ov rid).1 →
      r.redirectExtensionPath = "/blocked.html" ∧ r.priority = 1 := by
  induction ds with
  | nil => intro ov rid r hr; simp [buildRules] at hr
  | cons d ds ih =>
    intro ov rid r hr
    cases hget : mapGet ov d with
    | some e =>
      simp only [buildRules, hget] at hr
      by_cases he : now < e
      · rw [if_pos he] at hr
        exact ih ov rid r hr
      · rw [if_neg he] at hr
        simp only [List.mem_cons] at hr
        rcases hr with hr | hr | hr
        · subst hr; exact ⟨rfl, rfl⟩
        · subst hr; exact ⟨rfl, rfl⟩
        · exact ih (mapDelete ov d) (rid + 2) r hr
    | none =>
      simp only [buildRules, hget] at hr
      simp only [List.mem_cons] at hr
      rcases hr with hr | hr | hr
      · subst hr; exact ⟨rfl, rfl⟩
      · subst hr; exact ⟨rfl, rfl⟩
      · exact ih ov (rid + 2) r hr

theorem specCompiledFilters_of_guard_false (st : BlockingState) (now : Int)
    (h : (st.focusMode && !st.blockedSites.isEmpty) = false) :
    specCompiledFilters st now = [] := by
  rw [specCompiledFilters, h]
  rfl

theorem updateBlockingRules_consistent (st : BlockingState) (now : Int) (inst : List Rule) :
    ((updateBlockingRules st now inst).1).map Rule.urlFilter =
      specCompiledFilters ((updateBlockingRules st now inst).2) now
    ∧ ((updateBlockingRules st now inst).1).map Rule.urlFilter = specCompiledFilters st now := by
  by_cases hc : (!st.focusMode || st.blockedSites.isEmpty) = true
  · have hg : (st.focusMode && !st.blockedSites.isEmpty) = false := by
      cases hf : st.focusMode <;> cases he : st.blockedSites.isEmpty <;> simp_all
    rw [updateBlockingRules]
    simp only [hc, if_true]
    simp [specCompiledFilters_of_guard_false st now hg]
  · have hc' : (!st.focusMode || st.blockedSites.isEmpty) = false := by
      cases hx : (!st.focusMode || st.blockedSites.isEmpty)
      · rfl
      · exact absurd hx hc
    have hf : st.focusMode = true := by
      cases hx : st.focusMode
      · rw [hx] at hc'; simp at hc'
      · rfl
    have he : st.blockedSites.isEmpty = false := by
      cases hx : st.blockedSites.isEmpty
      · rfl
      · rw [hx] at hc'; simp at hc'
    rw [updateBlockingRules]
    simp only [hc', Bool.false_eq_true, if_false]
    constructor
    · rw [buildRules_fst_map now st.blockedSites st.temporaryOverrides 1]
      rw [specCompiledFilters]
      simp only [hf, he, Bool.not_false, Bool.and_self, if_true]
      exact (specFiltersFor_congr now st.temporaryOverrides
        ((buildRules now st.blockedSites st.temporaryOverrides 1).2)
        (fun x =>
          (overrideActive_buildRules_snd now st.blockedSites st.temporaryOverrides 1 x).symm)
        st.blockedSites)
    · rw [buildRules_fst_map now st.blockedSites st.temporaryOverrides 1]
      rw [specCompiledFilters]
      simp [hf, he]

theorem blockStep_restart_establishes (sys : BlockSys) (now : Int) :
    SysInv (blockStep sys (BlockEvent.restart now)) now := by
  rw [SysInv, blockStep, blockingRestart]
  by_cases hf : sys.st.focusMode = true
  · simp only [hf, if_true]
    exact (updateBlockingRules_consistent _ now (clearBlockingRules sys.installed)).1
  · have hf' : sys.st.focusMode = false := by
      cases hx : sys.st.focusMode
      · rfl
      · exact absurd hx hf
    simp only [hf', Bool.false_eq_true, if_false]
    rw [specCompiledFilters_of_guard_false]
    · rfl
    · simp [hf']

end TTExt

namespace TTExt

theorem blockStep_preserves (sys : BlockSys) (e : BlockEvent)
    (hinv : SysInv sys e.time) : SysInv (blockStep sys e) e.time := by
  cases e with
  | toggle now =>
    simp only [BlockEvent.time] at hinv ⊢
    rw [blockStep, toggleFocusMode]
    cases hf : sys.st.focusMode with
    | false =>
      simp only [hf, Bool.not_false, if_true]
      exact (updateBlockingRules_consistent _ now sys.installed).1
    | true =>
      simp only [hf, Bool.not_true, Bool.false_eq_true, if_false]
      simp only [SysInv, List.map_nil]
      exact (specCompiledFilters_of_guard_false _ now (by simp)).symm
  | add d now =>
    simp only [BlockEvent.time] at hinv ⊢
    rw [blockStep, addBlockedSite]
    cases ht : truthyOptStr d with
    | false =>
      simp only [ht, Bool.not_false, if_true]
      exact hinv
    | true =>
      simp only [ht, Bool.not_true, Bool.false_eq_true, if_false]
      cases hf : sys.st.focusMode with
      | true =>
        simp only [hf, if_true]
        exact (updateBlockingRules_consistent _ now sys.installed).1
      | false =>
        simp only [hf, Bool.false_eq_true, if_false]
        simp only [SysInv] at hinv ⊢
        rw [hinv, specCompiledFilters_of_guard_false sys.st now (by simp [hf]),
          specCompiledFilters_of_guard_false _ now (by simp [hf])]
  | remove d now =>
    simp only [BlockEvent.time] at hinv ⊢
    rw [blockStep, removeBlockedSite]
    cases hf : sys.st.focusMode with
    | true =>
      simp only [hf, if_true]
      exact (updateBlockingRules_consistent _ now sys.installed).1
    | false =>
      simp only [hf, Bool.false_eq_true, if_false]
      simp only [SysInv] at hinv ⊢
      rw [hinv, specCompiledFilters_of_guard_false sys.st now (by simp [hf]),
        specCompiledFilters_of_guard_false _ now (by simp [hf])]
  | grant d dur now =>
    simp only [BlockEvent.time] at hinv ⊢
    rw [blockStep]
    cases hf : sys.st.focusMode with
    | true =>
      simp only [setTemporaryOverride, hf, if_true]
      exact (updateBlockingRules_consistent _ now sys.installed).1
    | false =>
      simp only [setTemporaryOverride, hf, Bool.false_eq_true, if_false]
      simp only [SysInv] at hinv ⊢
      rw [hinv, specCompiledFilters_of_guard_false sys.st now (by simp [hf]),
        specCompiledFilters_of_guard_false _ now (by simp [hf])]
  | expire d now =>
    simp only [BlockEvent.time] at hinv ⊢
    rw [blockStep]
    cases hf : sys.st.focusMode with
    | true =>
      simp only [hf, if_true]
      exact (updateBlockingRules_consistent _ now sys.installed).1
    | false =>
      simp only [hf, Bool.false_eq_true, if_false]
      simp only [SysInv] at hinv ⊢
      rw [hinv, specCompiledFilters_of_guard_false sys.st now (by simp [hf]),
        specCompiledFilters_of_guard_false _ now (by simp [hf])]
  | restart now =>
    exact blockStep_restart_establishes sys now

/-- C1: every recompilation ignores the previously installed table entirely (remove-all, then
add-current), so updateBlockingRules yields a table that is exactly the set compiled from the
current BlockingState - two redirect rules to /blocked.html (wildcard-subdomain and bare
pattern) per blocked domain without an active override, and the empty table when focus mode is
off or nothing is blocked; every mutation event (toggle, add or remove of a blocked site,
override grant, override expiry, and process restart) preserves the exact-equality invariant
between the installed table and the compiled set at the instant of the event; and on process
restart the invariant is established unconditionally - the persisted table is fully removed
before any reinstall even when focusMode was persisted as true. -/
theorem rule_table_full_replace :
    (∀ (sys : BlockSys) (e : BlockEvent),
        SysInv sys e.time → SysInv (blockStep sys e) e.time)
    ∧ (∀ (sys : BlockSys) (now : Int), SysInv (blockStep sys (BlockEvent.restart now)) now)
    ∧ (∀ (st : BlockingState) (now : Int) (inst inst' : List Rule),
        updateBlockingRules st now inst = updateBlockingRules st now inst')
    ∧ (∀ (st : BlockingState) (now : Int) (inst : List Rule),
        ((updateBlockingRules st now inst).1).map Rule.urlFilter = specCompiledFilters st now
        ∧ ∀ r ∈ (updateBlockingRules st now inst).1,
            r.redirectExtensionPath = "/blocked.html" ∧ r.priority = 1) := by
  refine ⟨blockStep_preserves, blockStep_restart_establishes, fun st now inst inst' => rfl,
    fun st now inst => ⟨(updateBlockingRules_consistent st now inst).2, ?_⟩⟩
  intro r hr
  rw [updateBlockingRules] at hr
  by_cases hc : (!st.focusMode || st.blockedSites.isEmpty) = true
  · simp [hc] at hr
  · have hc' : (!st.focusMode || st.blockedSites.isEmpty) = false := by
      cases hx : (!st.focusMode || st.blockedSites.isEmpty)
      · rfl
      · exact absurd hx hc
    simp only [hc', Bool.false_eq_true, if_false] at hr
    exact buildRules_fields now st.blockedSites st.temporaryOverrides 1 r hr

/-- Witness for C1: on a consistent system blocking x.com with focus mode on, adding y.com at
time 50 leaves the installed table exactly equal to the compiled set of the mutated state. -/
theorem rule_table_full_replace_witness :
    SysInv (blockStep ⟨⟨true, ["x.com"], [], none, 0⟩,
        [ruleFor 1 (subdomainFilter "x.com"), ruleFor 2 (bareFilter "x.com")]⟩
        (BlockEvent.add (some "y.com") 50)) (BlockEvent.add (some "y.com") 50).time :=
  rule_table_full_replace.1 ⟨⟨true, ["x.com"], [], none, 0⟩,
      [ruleFor 1 (subdomainFilter "x.com"), ruleFor 2 (bareFilter "x.com")]⟩
    (BlockEvent.add (some "y.com") 50) (by unfold SysInv; decide)

end TTExt
